import Mathlib

/-!
Shallow embedding of the x86-64 page-table level operations backend
(hypervisor/arch/x86/paging.c) of the Jailhouse partitioning hypervisor,
together with proofs of the specified properties of those operations.

Page-table entries are 64-bit words, modelled as natural numbers; every
operation of the backend applies explicit masks exactly as the C code
does, so no truncation beyond those masks is needed.  A page table is
modelled as a map from entry index to entry value; the backend only ever
touches indices 0..511.
-/

namespace Jailhouse

/-- A page table: entry index to 64-bit entry value. -/
def PageTable : Type := Nat → Nat

/-- Modelled from the spec: the page size constant of the architecture
headers (not under src/); the spec fixes a 4 KiB leaf page size. -/
def PAGE_SIZE : Nat := 4096

/-- Modelled from the spec: the sentinel returned by lookup on absence,
defined in the generic paging header (not under src/) as the all-ones
64-bit value. -/
def INVALID_PHYS_ADDR : Nat := 0xffffffffffffffff

/-- Modelled from the spec: the fixed default-present flag set used when
linking a freshly allocated table (architecture header, not under src/);
present, writable and user bits, so the validity bit 0 is included. -/
def PAGE_DEFAULT_FLAGS : Nat := 0x07

/-- X86_64_FLAG_HUGEPAGE from paging.c: bit 7 marks a huge page. -/
def X86_64_FLAG_HUGEPAGE : Nat := 0x80

/-- x86_64_entry_valid: bit 0 of the entry is the validity bit. -/
def x86_64_entry_valid (pte : Nat) : Bool :=
  pte &&& 1 != 0

/-- x86_64_get_flags: the entry masked with 0x7f. -/
def x86_64_get_flags (pte : Nat) : Nat :=
  pte &&& 0x7f

/-- x86_64_set_next_pt: the value stored into the entry when linking the
next-level table. -/
def x86_64_set_next_pt (next_pt : Nat) : Nat :=
  (next_pt &&& 0x000ffffffffff000) ||| PAGE_DEFAULT_FLAGS

/-- x86_64_clear_entry: the value stored into a cleared entry. -/
def x86_64_clear_entry : Nat := 0

/-- x86_64_page_table_empty: scans the PAGE_SIZE / 8 entries of the table
and reports true when none is valid. -/
def x86_64_page_table_empty (page_table : PageTable) : Bool :=
  (List.range (PAGE_SIZE / 8)).all fun n => ! x86_64_entry_valid (page_table n)

/-- x86_64_get_entry_l4: the root-level entry for a virtual address. -/
def x86_64_get_entry_l4 (page_table : PageTable) (virt : Nat) : Nat :=
  page_table ((virt >>> 39) &&& 0x1ff)

/-- x86_64_get_entry_l3: the level-3 entry for a virtual address. -/
def x86_64_get_entry_l3 (page_table : PageTable) (virt : Nat) : Nat :=
  page_table ((virt >>> 30) &&& 0x1ff)

/-- x86_64_get_entry_l2: the level-2 entry for a virtual address. -/
def x86_64_get_entry_l2 (page_table : PageTable) (virt : Nat) : Nat :=
  page_table ((virt >>> 21) &&& 0x1ff)

/-- x86_64_get_entry_l1: the leaf-level entry for a virtual address. -/
def x86_64_get_entry_l1 (page_table : PageTable) (virt : Nat) : Nat :=
  page_table ((virt >>> 12) &&& 0x1ff)

/-- x86_64_set_terminal_l1: the value stored into a leaf entry for a
terminal mapping; the physical address is masked to bits 12..51, the
flags are or-ed in unmasked. -/
def x86_64_set_terminal_l1 (phys flags : Nat) : Nat :=
  (phys &&& 0x000ffffffffff000) ||| flags

/-- x86_64_get_phys_l3: huge-page decode at level 3 (1 GiB): only when
bit 7 is set; combines the 1 GiB-aligned base with bits 0..29 of virt. -/
def x86_64_get_phys_l3 (pte virt : Nat) : Nat :=
  if pte &&& X86_64_FLAG_HUGEPAGE = 0 then INVALID_PHYS_ADDR
  else (pte &&& 0x000fffffc0000000) ||| (virt &&& 0x000000003fffffff)

/-- x86_64_get_phys_l2: huge-page decode at level 2 (2 MiB): only when
bit 7 is set; combines the 2 MiB-aligned base with bits 0..20 of virt. -/
def x86_64_get_phys_l2 (pte virt : Nat) : Nat :=
  if pte &&& X86_64_FLAG_HUGEPAGE = 0 then INVALID_PHYS_ADDR
  else (pte &&& 0x000fffffffe00000) ||| (virt &&& 0x00000000001fffff)

/-- x86_64_get_phys_l1: leaf decode, unconditional; combines the page
base with the page offset bits 0..11 of virt. -/
def x86_64_get_phys_l1 (pte virt : Nat) : Nat :=
  (pte &&& 0x000ffffffffff000) ||| (virt &&& 0x0000000000000fff)

/-- x86_64_get_next_pt_l4: next-table pointer held in a root entry. -/
def x86_64_get_next_pt_l4 (pte : Nat) : Nat :=
  pte &&& 0x000ffffffffff000

/-- x86_64_get_next_pt_l23: next-table pointer held in a level 3 or
level 2 entry. -/
def x86_64_get_next_pt_l23 (pte : Nat) : Nat :=
  pte &&& 0x000ffffffffff000

/-- Modelled from the spec: the generic get_phys used at the root level
(defined in the generic walker file, not under src/); it always returns
the invalid sentinel. -/
def page_map_get_phys_invalid (_pte _virt : Nat) : Nat :=
  INVALID_PHYS_ADDR

/-- The per-level descriptor, struct paging: page_size plus the level
operations; set_terminal and get_next_pt are function pointers that may
be absent at a level (NULL in C), hence Option. -/
structure Paging where
  page_size : Nat := 0
  entry_valid : Nat → Bool
  get_flags : Nat → Nat
  set_next_pt : Nat → Nat
  clear_entry : Nat
  page_table_empty : PageTable → Bool
  get_entry : PageTable → Nat → Nat
  set_terminal : Option (Nat → Nat → Nat) := none
  get_phys : Nat → Nat → Nat
  get_next_pt : Option (Nat → Nat) := none

/-- The 4-entry level-descriptor array x86_64_paging, root to leaf. -/
def x86_64_paging : List Paging := [
  { entry_valid := x86_64_entry_valid,
    get_flags := x86_64_get_flags,
    set_next_pt := x86_64_set_next_pt,
    clear_entry := x86_64_clear_entry,
    page_table_empty := x86_64_page_table_empty,
    get_entry := x86_64_get_entry_l4,
    get_phys := page_map_get_phys_invalid,
    get_next_pt := some x86_64_get_next_pt_l4 },
  { entry_valid := x86_64_entry_valid,
    get_flags := x86_64_get_flags,
    set_next_pt := x86_64_set_next_pt,
    clear_entry := x86_64_clear_entry,
    page_table_empty := x86_64_page_table_empty,
    get_entry := x86_64_get_entry_l3,
    get_phys := x86_64_get_phys_l3,
    get_next_pt := some x86_64_get_next_pt_l23 },
  { entry_valid := x86_64_entry_valid,
    get_flags := x86_64_get_flags,
    set_next_pt := x86_64_set_next_pt,
    clear_entry := x86_64_clear_entry,
    page_table_empty := x86_64_page_table_empty,
    get_entry := x86_64_get_entry_l2,
    get_phys := x86_64_get_phys_l2,
    get_next_pt := some x86_64_get_next_pt_l23 },
  { page_size := PAGE_SIZE,
    entry_valid := x86_64_entry_valid,
    get_flags := x86_64_get_flags,
    set_next_pt := x86_64_set_next_pt,
    clear_entry := x86_64_clear_entry,
    page_table_empty := x86_64_page_table_empty,
    get_entry := x86_64_get_entry_l1,
    set_terminal := some x86_64_set_terminal_l1,
    get_phys := x86_64_get_phys_l1 }
]

/-! ## Bit-level helper lemmas -/

/-- A contiguous bit mask covering bits k..k+m-1, tested bitwise. -/
theorem testBit_range_mask (m k i : Nat) :
    ((2 ^ m - 1) * 2 ^ k).testBit i = (decide (k ≤ i) && decide (i < k + m)) := by
  rw [← Nat.shiftLeft_eq, Nat.testBit_shiftLeft, Nat.testBit_two_pow_sub_one]
  by_cases h : k ≤ i
  · have h3 : (i - k < m) ↔ (i < k + m) := by omega
    simp [ge_iff_le, h, h3]
  · simp [ge_iff_le, h]

/-- Bits below the alignment of a number are clear. -/
theorem testBit_eq_false_of_aligned {p k : Nat} (hp : p % 2 ^ k = 0)
    {i : Nat} (hi : i < k) : p.testBit i = false := by
  have h := (Nat.testBit_mod_two_pow p k i).symm
  rw [hp, Nat.zero_testBit] at h
  simpa [hi] using h

/-- Bits at or above the width bound of a number are clear. -/
theorem testBit_eq_false_of_width {p n : Nat} (hp : p < 2 ^ n)
    {i : Nat} (hi : n ≤ i) : p.testBit i = false :=
  Nat.testBit_lt_two_pow
    (lt_of_lt_of_le hp (Nat.pow_le_pow_right (by norm_num) hi))

/-- Bitwise and distributes over bitwise or on the left argument. -/
theorem lor_land_distrib (a b c : Nat) :
    (a ||| b) &&& c = (a &&& c) ||| (b &&& c) := by
  apply Nat.eq_of_testBit_eq
  intro i
  simp only [Nat.testBit_land, Nat.testBit_lor]
  cases a.testBit i <;> cases b.testBit i <;> cases c.testBit i <;> rfl

/-- A number aligned to 2^k and below 2^(k+m) is absorbed by the mask of
bits k..k+m-1. -/
theorem land_range_mask_of_aligned {p k m : Nat} (hp : p % 2 ^ k = 0)
    (hw : p < 2 ^ (k + m)) : p &&& ((2 ^ m - 1) * 2 ^ k) = p := by
  apply Nat.eq_of_testBit_eq
  intro i
  rw [Nat.testBit_land, testBit_range_mask]
  by_cases h1 : k ≤ i
  · by_cases h2 : i < k + m
    · simp [h1, h2]
    · simp [testBit_eq_false_of_width hw (Nat.not_lt.mp h2), h2]
  · simp [testBit_eq_false_of_aligned hp (Nat.not_le.mp h1), h1]

/-- A number below 2^k is annihilated by the mask of bits k..k+m-1. -/
theorem land_range_mask_of_low {f k : Nat} (hf : f < 2 ^ k) (m : Nat) :
    f &&& ((2 ^ m - 1) * 2 ^ k) = 0 := by
  apply Nat.eq_of_testBit_eq
  intro i
  rw [Nat.testBit_land, testBit_range_mask, Nat.zero_testBit]
  by_cases h1 : k ≤ i
  · simp [testBit_eq_false_of_width hf h1]
  · simp [h1]

/-- Bitwise and with a contiguous low mask is remainder. -/
theorem land_two_pow_sub_one (a m : Nat) : a &&& (2 ^ m - 1) = a % 2 ^ m := by
  apply Nat.eq_of_testBit_eq
  intro i
  rw [Nat.testBit_land, Nat.testBit_two_pow_sub_one, Nat.testBit_mod_two_pow,
    Bool.and_comm]

/-- Or with zero on the right. -/
theorem lor_zero_right (a : Nat) : a ||| 0 = a := by
  apply Nat.eq_of_testBit_eq
  intro i
  simp [Nat.testBit_lor, Nat.zero_testBit]

/-- The leaf physical-address mask written as a contiguous range. -/
theorem phys_mask_eq : (0x000ffffffffff000 : Nat) = (2 ^ 40 - 1) * 2 ^ 12 := by
  norm_num

/-- The 1 GiB huge-page base mask written as a contiguous range. -/
theorem l3_mask_eq : (0x000fffffc0000000 : Nat) = (2 ^ 22 - 1) * 2 ^ 30 := by
  norm_num

/-- The 2 MiB huge-page base mask written as a contiguous range. -/
theorem l2_mask_eq : (0x000fffffffe00000 : Nat) = (2 ^ 31 - 1) * 2 ^ 21 := by
  norm_num

/-- Round trip of set_terminal then get_phys at the leaf, for a page
aligned physical address within 52 bits and flags confined to the low
12 bits. -/
theorem set_terminal_get_phys_aux {p f : Nat} (v : Nat) (hp : p % 2 ^ 12 = 0)
    (hw : p < 2 ^ 52) (hf : f < 2 ^ 12) :
    x86_64_get_phys_l1 (x86_64_set_terminal_l1 p f) v =
      p ||| (v &&& 0xfff) := by
  unfold x86_64_get_phys_l1 x86_64_set_terminal_l1
  rw [phys_mask_eq, lor_land_distrib, Nat.and_assoc, Nat.and_self,
    land_range_mask_of_aligned hp (by simpa using hw),
    land_range_mask_of_low hf, lor_zero_right]

/-- Or with zero on the left. -/
theorem lor_zero_left (a : Nat) : 0 ||| a = a := by
  apply Nat.eq_of_testBit_eq
  intro i
  simp [Nat.testBit_lor, Nat.zero_testBit]

/-- The or of two values masked below bit 52 stays below bit 52. -/
theorem masked_lor_lt (e v m1 m2 : Nat) (h1 : m1 < 2 ^ 52) (h2 : m2 < 2 ^ 52) :
    (e &&& m1) ||| (v &&& m2) < 2 ^ 52 :=
  Nat.or_lt_two_pow (lt_of_le_of_lt Nat.and_le_right h1)
    (lt_of_le_of_lt Nat.and_le_right h2)

/-- Anything below bit 52 differs from the all-ones sentinel. -/
theorem ne_invalid_of_lt {a : Nat} (h : a < 2 ^ 52) : a ≠ INVALID_PHYS_ADDR := by
  have h52 : (2 : Nat) ^ 52 = 4503599627370496 := by norm_num
  unfold INVALID_PHYS_ADDR
  omega

/-! ## Claim theorems -/

set_option maxRecDepth 8000

/-- C1: for every virtual address v, every 4 KiB-aligned physical address p
within the 52-bit physical range, and every valid generic-flags value f,
writing the leaf entry with set_terminal and reading it back with the leaf
get_phys on the same v returns exactly p or-ed with the page offset of v. -/
theorem map_lookup_roundtrip (v p f : Nat) (halign : p % 4096 = 0)
    (hrange : p < 2 ^ 52) (hflags : f &&& 0x7f = f) (_hvalid : f &&& 1 = 1) :
    x86_64_get_phys_l1 (x86_64_set_terminal_l1 p f) v = p ||| (v &&& 0xfff) := by
  have h4 : f ≤ 0x7f := by
    rw [← hflags]; exact Nat.and_le_right
  have hf : f < 2 ^ 12 := by
    norm_num
    omega
  have halign2 : p % 2 ^ 12 = 0 := by
    have h12 : (2 : Nat) ^ 12 = 4096 := by norm_num
    rw [h12]; exact halign
  exact set_terminal_get_phys_aux v halign2 hrange hf

/-- C1 witness at v = 0x1234, p = 0x2000, f = 0x23. -/
theorem map_lookup_roundtrip_witness :
    x86_64_get_phys_l1 (x86_64_set_terminal_l1 0x2000 0x23) 0x1234 =
      0x2000 ||| (0x1234 &&& 0xfff) :=
  map_lookup_roundtrip 0x1234 0x2000 0x23 (by decide) (by decide) (by decide)
    (by decide)

/-- C2: get_phys per level: the root-level get_phys always yields the
invalid sentinel; each intermediate level yields a real address exactly
when bit 7 of the entry is set, combining the large-granularity base with
the low-order virtual-address bits, and the sentinel when bit 7 is clear;
the leaf get_phys always yields a real address. -/
theorem get_phys_level_behavior (e v : Nat) :
    page_map_get_phys_invalid e v = INVALID_PHYS_ADDR
  ∧ (e &&& X86_64_FLAG_HUGEPAGE = 0 →
      x86_64_get_phys_l3 e v = INVALID_PHYS_ADDR ∧
      x86_64_get_phys_l2 e v = INVALID_PHYS_ADDR)
  ∧ (e &&& X86_64_FLAG_HUGEPAGE ≠ 0 →
      x86_64_get_phys_l3 e v =
        (e &&& 0x000fffffc0000000) ||| (v &&& 0x3fffffff) ∧
      x86_64_get_phys_l3 e v ≠ INVALID_PHYS_ADDR ∧
      x86_64_get_phys_l2 e v =
        (e &&& 0x000fffffffe00000) ||| (v &&& 0x1fffff) ∧
      x86_64_get_phys_l2 e v ≠ INVALID_PHYS_ADDR)
  ∧ x86_64_get_phys_l1 e v ≠ INVALID_PHYS_ADDR := by
  refine ⟨rfl, ?_, ?_, ?_⟩
  · intro h
    unfold x86_64_get_phys_l3 x86_64_get_phys_l2
    rw [if_pos h, if_pos h]
    exact ⟨rfl, rfl⟩
  · intro h
    unfold x86_64_get_phys_l3 x86_64_get_phys_l2
    rw [if_neg h, if_neg h]
    exact ⟨rfl, ne_invalid_of_lt (masked_lor_lt e v _ _ (by decide) (by decide)),
      rfl, ne_invalid_of_lt (masked_lor_lt e v _ _ (by decide) (by decide))⟩
  · unfold x86_64_get_phys_l1
    exact ne_invalid_of_lt (masked_lor_lt e v _ _ (by decide) (by decide))

/-- C2 witness: a level-3 entry with bit 7 set decodes to a real address;
a level-2 entry with bit 7 clear yields the sentinel. -/
theorem get_phys_level_behavior_witness :
    x86_64_get_phys_l3 0xC0000083 0x1234 ≠ INVALID_PHYS_ADDR ∧
    x86_64_get_phys_l2 0x03 0x1234 = INVALID_PHYS_ADDR :=
  ⟨((get_phys_level_behavior 0xC0000083 0x1234).2.2.1 (by decide)).2.1,
   ((get_phys_level_behavior 0x03 0x1234).2.1 (by decide)).2⟩

/-- C3: get_flags masks the entry to 0x7f at every level, so the returned
value never has the huge-page marker bit 7 set. -/
theorem get_flags_masks_hugepage (e : Nat) :
    x86_64_get_flags e = e &&& 0x7f
  ∧ (x86_64_get_flags e).testBit 7 = false
  ∧ x86_64_get_flags e < 0x80
  ∧ x86_64_paging.map Paging.get_flags =
      [x86_64_get_flags, x86_64_get_flags, x86_64_get_flags,
        x86_64_get_flags] := by
  refine ⟨rfl, ?_, ?_, rfl⟩
  · unfold x86_64_get_flags
    rw [Nat.testBit_land]
    have h7 : Nat.testBit 0x7f 7 = false := by decide
    simp [h7]
  · unfold x86_64_get_flags
    have hle : e &&& 0x7f ≤ 0x7f := Nat.and_le_right
    omega

/-- C4: set_next_pt followed by get_next_pt (either non-leaf variant)
returns the page-aligned in-range table address unchanged, and the entry
written by set_next_pt is valid. -/
theorem set_next_pt_roundtrip (t : Nat) (halign : t % 4096 = 0)
    (hrange : t < 2 ^ 52) :
    x86_64_get_next_pt_l4 (x86_64_set_next_pt t) = t
  ∧ x86_64_get_next_pt_l23 (x86_64_set_next_pt t) = t
  ∧ x86_64_entry_valid (x86_64_set_next_pt t) = true := by
  have halign2 : t % 2 ^ 12 = 0 := by
    have h12 : (2 : Nat) ^ 12 = 4096 := by norm_num
    rw [h12]; exact halign
  have key : (x86_64_set_next_pt t) &&& 0x000ffffffffff000 = t := by
    unfold x86_64_set_next_pt PAGE_DEFAULT_FLAGS
    rw [phys_mask_eq, lor_land_distrib, Nat.and_assoc, Nat.and_self,
      land_range_mask_of_aligned halign2 (by simpa using hrange),
      land_range_mask_of_low (by decide : (0x07 : Nat) < 2 ^ 12) 40,
      lor_zero_right]
  refine ⟨key, key, ?_⟩
  have hb : ((t &&& 0x000ffffffffff000) ||| 0x07).testBit 0 = true := by
    rw [Nat.testBit_lor]
    have h0 : Nat.testBit 0x07 0 = true := by decide
    simp [h0]
  rw [Nat.testBit_zero] at hb
  have hm : ((t &&& 0x000ffffffffff000) ||| 0x07) % 2 = 1 :=
    of_decide_eq_true hb
  simp [x86_64_entry_valid, x86_64_set_next_pt, PAGE_DEFAULT_FLAGS,
    Nat.and_one_is_mod, hm]

/-- C4 witness at t = 0x5000. -/
theorem set_next_pt_roundtrip_witness :
    x86_64_get_next_pt_l4 (x86_64_set_next_pt 0x5000) = 0x5000
  ∧ x86_64_get_next_pt_l23 (x86_64_set_next_pt 0x5000) = 0x5000
  ∧ x86_64_entry_valid (x86_64_set_next_pt 0x5000) = true :=
  set_next_pt_roundtrip 0x5000 (by decide) (by decide)

/-- C5: each level selects the entry indexed by its 9-bit field of the
virtual address: bits 39..47, 30..38, 21..29 and 12..20 respectively, and
every such index is below 512. -/
theorem get_entry_index_bits (pt : PageTable) (v : Nat) :
    x86_64_get_entry_l4 pt v = pt (v / 2 ^ 39 % 512)
  ∧ x86_64_get_entry_l3 pt v = pt (v / 2 ^ 30 % 512)
  ∧ x86_64_get_entry_l2 pt v = pt (v / 2 ^ 21 % 512)
  ∧ x86_64_get_entry_l1 pt v = pt (v / 2 ^ 12 % 512)
  ∧ (v >>> 39) &&& 0x1ff < 512 ∧ (v >>> 30) &&& 0x1ff < 512
  ∧ (v >>> 21) &&& 0x1ff < 512 ∧ (v >>> 12) &&& 0x1ff < 512 := by
  have hidx : ∀ w k : Nat, (w >>> k) &&& 0x1ff = w / 2 ^ k % 512 := by
    intro w k
    rw [Nat.shiftRight_eq_div_pow,
      (by norm_num : (0x1ff : Nat) = 2 ^ 9 - 1), land_two_pow_sub_one]
    norm_num
  have hlt : ∀ w k : Nat, (w >>> k) &&& 0x1ff < 512 := by
    intro w k
    rw [hidx]
    exact Nat.mod_lt _ (by norm_num)
  exact ⟨congrArg pt (hidx v 39), congrArg pt (hidx v 30),
    congrArg pt (hidx v 21), congrArg pt (hidx v 12),
    hlt v 39, hlt v 30, hlt v 21, hlt v 12⟩

/-- C6: validity is exactly bit 0; a cleared entry is zero, invalid and
has no flags; and a table is empty exactly when all 512 entries are
invalid. -/
theorem entry_valid_clear_empty (e : Nat) (pt : PageTable) :
    (x86_64_entry_valid e = true ↔ e.testBit 0 = true)
  ∧ x86_64_clear_entry = 0
  ∧ x86_64_entry_valid x86_64_clear_entry = false
  ∧ x86_64_get_flags x86_64_clear_entry = 0
  ∧ (x86_64_page_table_empty pt = true ↔
      ∀ i < 512, x86_64_entry_valid (pt i) = false) := by
  refine ⟨?_, rfl, by decide, by decide, ?_⟩
  · unfold x86_64_entry_valid
    rw [Nat.and_one_is_mod, Nat.testBit_zero]
    rcases Nat.mod_two_eq_zero_or_one e with h | h <;> simp [h]
  · unfold x86_64_page_table_empty
    rw [(by norm_num [PAGE_SIZE] : PAGE_SIZE / 8 = 512), List.all_eq_true]
    constructor
    · intro h i hi
      have h2 := h i (List.mem_range.mpr hi)
      simpa using h2
    · intro h x hx
      simp [h x (List.mem_range.mp hx)]

/-- C7: shape of the 4-entry level-descriptor array: page_size is non-zero
only at the leaf where it is 4 KiB; set_terminal exists only at the leaf;
get_next_pt exists exactly at the non-leaf levels; and the common
operations are present, and the same, at every level. -/
theorem paging_array_shape :
    x86_64_paging.length = 4
  ∧ x86_64_paging.map Paging.page_size = [0, 0, 0, PAGE_SIZE]
  ∧ PAGE_SIZE = 4096
  ∧ x86_64_paging.map (fun l => l.set_terminal.isSome) =
      [false, false, false, true]
  ∧ x86_64_paging.map (fun l => l.get_next_pt.isSome) =
      [true, true, true, false]
  ∧ x86_64_paging.map Paging.get_entry =
      [x86_64_get_entry_l4, x86_64_get_entry_l3, x86_64_get_entry_l2,
        x86_64_get_entry_l1]
  ∧ x86_64_paging.map Paging.set_terminal =
      [none, none, none, some x86_64_set_terminal_l1]
  ∧ x86_64_paging.map Paging.get_phys =
      [page_map_get_phys_invalid, x86_64_get_phys_l3, x86_64_get_phys_l2,
        x86_64_get_phys_l1]
  ∧ x86_64_paging.map Paging.get_next_pt =
      [some x86_64_get_next_pt_l4, some x86_64_get_next_pt_l23,
        some x86_64_get_next_pt_l23, none]
  ∧ x86_64_paging.map Paging.entry_valid =
      [x86_64_entry_valid, x86_64_entry_valid, x86_64_entry_valid,
        x86_64_entry_valid]
  ∧ x86_64_paging.map Paging.get_flags =
      [x86_64_get_flags, x86_64_get_flags, x86_64_get_flags,
        x86_64_get_flags]
  ∧ x86_64_paging.map Paging.set_next_pt =
      [x86_64_set_next_pt, x86_64_set_next_pt, x86_64_set_next_pt,
        x86_64_set_next_pt]
  ∧ x86_64_paging.map Paging.clear_entry =
      [x86_64_clear_entry, x86_64_clear_entry, x86_64_clear_entry,
        x86_64_clear_entry]
  ∧ x86_64_paging.map Paging.page_table_empty =
      [x86_64_page_table_empty, x86_64_page_table_empty,
        x86_64_page_table_empty, x86_64_page_table_empty] :=
  ⟨rfl, rfl, rfl, rfl, rfl, rfl, rfl, rfl, rfl, rfl, rfl, rfl, rfl, rfl⟩

/-- C9: no get_phys tests the validity bit: the leaf get_phys on a zeroed
entry still returns the page offset of virt, a non-sentinel value, and an
invalid intermediate entry with bit 7 set still decodes to a physical
address. -/
theorem get_phys_ignores_validity (v e : Nat) :
    x86_64_get_phys_l1 0 v = v &&& 0xfff
  ∧ x86_64_get_phys_l1 0 v ≠ INVALID_PHYS_ADDR
  ∧ x86_64_entry_valid 0 = false
  ∧ (x86_64_entry_valid e = false → e &&& X86_64_FLAG_HUGEPAGE ≠ 0 →
      x86_64_get_phys_l3 e v ≠ INVALID_PHYS_ADDR ∧
      x86_64_get_phys_l2 e v ≠ INVALID_PHYS_ADDR) := by
  refine ⟨?_, ?_, by decide, ?_⟩
  · unfold x86_64_get_phys_l1
    rw [(by decide : (0 : Nat) &&& 0x000ffffffffff000 = 0), lor_zero_left]
  · unfold x86_64_get_phys_l1
    exact ne_invalid_of_lt (masked_lor_lt 0 v _ _ (by decide) (by decide))
  · intro _ h
    unfold x86_64_get_phys_l3 x86_64_get_phys_l2
    rw [if_neg h, if_neg h]
    exact ⟨ne_invalid_of_lt (masked_lor_lt e v _ _ (by decide) (by decide)),
      ne_invalid_of_lt (masked_lor_lt e v _ _ (by decide) (by decide))⟩

/-- C9 witness: the zeroed leaf entry and the invalid huge-marked entry
0x80 at virt 0xABC. -/
theorem get_phys_ignores_validity_witness :
    x86_64_get_phys_l1 0 0xABC = 0xABC &&& 0xfff ∧
    x86_64_get_phys_l3 0x80 0xABC ≠ INVALID_PHYS_ADDR :=
  ⟨(get_phys_ignores_validity 0xABC 0x80).1,
   ((get_phys_ignores_validity 0xABC 0x80).2.2.2 (by decide) (by decide)).1⟩

/-- C10: set_terminal masks the physical address to bits 12..51 but
stores the flags verbatim, including any bit at position 12 or above; the
map-then-lookup round trip holds under the precondition that flags are
confined to bits 0..11, and fails without it. -/
theorem set_terminal_flags_unmasked (p f v i : Nat) :
    x86_64_set_terminal_l1 p f = (p &&& 0x000ffffffffff000) ||| f
  ∧ (f.testBit i = true → (x86_64_set_terminal_l1 p f).testBit i = true)
  ∧ (p % 4096 = 0 → p < 2 ^ 52 → f &&& 0xfff = f →
      x86_64_get_phys_l1 (x86_64_set_terminal_l1 p f) v = p ||| (v &&& 0xfff))
  ∧ x86_64_get_phys_l1 (x86_64_set_terminal_l1 0 0x1000) 0 = 0x1000
  ∧ x86_64_get_phys_l1 (x86_64_set_terminal_l1 0 0x1000) 0 ≠
      0 ||| (0 &&& 0xfff) := by
  refine ⟨rfl, ?_, ?_, by decide, by decide⟩
  · intro hf
    unfold x86_64_set_terminal_l1
    rw [Nat.testBit_lor, hf, Bool.or_true]
  · intro h1 h2 h3
    have h4 : f ≤ 0xfff := by
      rw [← h3]; exact Nat.and_le_right
    have hf : f < 2 ^ 12 := by
      norm_num
      omega
    have h1b : p % 2 ^ 12 = 0 := by
      have h12 : (2 : Nat) ^ 12 = 4096 := by norm_num
      rw [h12]; exact h1
    exact set_terminal_get_phys_aux v h1b h2 hf

/-- C10 witness at p = 0x2000, f = 0x803, v = 0x1234, bit 0. -/
theorem set_terminal_flags_unmasked_witness :
    (x86_64_set_terminal_l1 0x2000 0x803).testBit 0 = true ∧
    x86_64_get_phys_l1 (x86_64_set_terminal_l1 0x2000 0x803) 0x1234 =
      0x2000 ||| (0x1234 &&& 0xfff) :=
  ⟨(set_terminal_flags_unmasked 0x2000 0x803 0x1234 0).2.1 (by decide),
   (set_terminal_flags_unmasked 0x2000 0x803 0x1234 0).2.2.1 (by decide)
     (by decide) (by decide)⟩

end Jailhouse
